import Mathlib

/-
Verification of the stateful 2D heat-diffusion solver in src/simulation.py
(class HeatMapSolver).  The embedding uses exact rational arithmetic for the
float computations of the source, total functions over cell indices for the
numpy arrays, and explicit state passing for the single-slot mask cache held
on the solver object.
-/

namespace HeatSim

/-- One heat source record, as read from the config key heat_sources:
center (x, y) in meters, radius in meters, fixed temperature. -/
structure HeatSource where
  x : ℚ
  y : ℚ
  radius : ℚ
  temperature : ℚ
deriving DecidableEq

/-- The solver configuration, as stored on HeatMapSolver in __init__:
grid_resolution (simulation_settings.grid_resolution_meters), time_step
(simulation_settings.time_step_seconds), the physics_constants entries and
the ordered heat source list. -/
structure Config where
  grid_resolution : ℚ
  time_step : ℚ
  thermal_diffusivity : ℚ
  wall_temp : ℚ
  initial_room_temp : ℚ
  heat_sources : List HeatSource
deriving DecidableEq

/-- Python int() / numpy astype(int32) conversion of an exact rational value:
truncation toward zero (floor for nonnegative arguments, ceiling for negative
ones). -/
def pyInt (q : ℚ) : ℤ := if 0 ≤ q then ⌊q⌋ else ⌈q⌉

/-- The stability limit dx^2 / (4 * alpha) computed in
HeatMapSolver._validate_stability (simulation.py line 32). -/
def stabilityLimit (cfg : Config) : ℚ :=
  cfg.grid_resolution ^ 2 / (4 * cfg.thermal_diffusivity)

/-- The data carried by the ValueError raised by _validate_stability
(simulation.py lines 34-39): the message interpolates the offending time
step dt and the computed limit.  The exception is modelled structurally by
this record. -/
structure StabilityError where
  dt : ℚ
  limit : ℚ
deriving DecidableEq

/-- HeatMapSolver._validate_stability (simulation.py lines 23-39): raises
(returns an error) iff dt > dx^2 / (4 * alpha). -/
def validate_stability (cfg : Config) : Except StabilityError Unit :=
  if stabilityLimit cfg < cfg.time_step then
    Except.error ⟨cfg.time_step, stabilityLimit cfg⟩
  else
    Except.ok ()

/-- The three mask-cache attributes set in HeatMapSolver.__init__
(simulation.py lines 14-18): _cached_mask, _last_geometry_hash,
_cached_grid_shape.  Masks are total boolean functions over (row, col)
indices; the stored mask is false outside the stored shape. -/
structure CacheState where
  cachedMask : Option (ℕ → ℕ → Bool)
  lastGeometryHash : Option (List (ℚ × ℚ))
  cachedGridShape : Option (ℕ × ℕ)

/-- The cache state right after __init__: all three attributes are None. -/
def initialCache : CacheState := ⟨none, none, none⟩

/-- A constructed solver: its immutable configuration plus the mutable
single-slot mask cache. -/
structure Solver where
  config : Config
  state : CacheState

/-- HeatMapSolver.__init__ (simulation.py lines 8-21): stores the config,
initializes the empty cache, and runs the stability check before any step
can be accepted; construction fails when the check raises. -/
def mkSolver (cfg : Config) : Except StabilityError Solver :=
  match validate_stability cfg with
  | Except.error e => Except.error e
  | Except.ok _ => Except.ok ⟨cfg, initialCache⟩

/-- The closed edge list of a polygon given as a vertex cycle: vertex i is
paired with vertex i+1, and the last vertex with the first (the polygon is
implicitly closed). -/
def polyEdges {α : Type} (P : List α) : List (α × α) := P.zip (P.rotate 1)

/-- Ray-crossing test of the fill model at integer pixel point (px, py):
the edge is a candidate iff exactly one endpoint lies strictly above the
horizontal ray through the point (half-open rule, written symmetrically in
the endpoints), and the crossing counts iff the intersection of the edge
with that horizontal line lies strictly to the right of the point.  The
strict-right comparison px < x1 + (py - y1)(x2 - x1)/(y2 - y1) is expressed
by the equivalent integer sign test 0 < cross * (y2 - y1), where cross is
the z-component of the cross product (p2 - p1) x (p - p1); the candidate
condition forces y1 and y2 to differ.  Here e.1 = (x1, y1) and
e.2 = (x2, y2). -/
def rayCross (px py : ℤ) (e : (ℤ × ℤ) × (ℤ × ℤ)) : Bool :=
  decide ((e.1.2 ≤ py ∧ py < e.2.2) ∨ (e.2.2 ≤ py ∧ py < e.1.2)) &&
  decide (0 < ((e.2.1 - e.1.1) * (py - e.1.2) - (e.2.2 - e.1.2) * (px - e.1.1))
      * (e.2.2 - e.1.2))

/-- Membership of integer point (px, py) on the closed segment between the
two integer endpoints of an edge: collinearity by cross product plus
bounding-box containment. -/
def onSegment (px py : ℤ) (e : (ℤ × ℤ) × (ℤ × ℤ)) : Bool :=
  decide ((e.2.1 - e.1.1) * (py - e.1.2) = (e.2.2 - e.1.2) * (px - e.1.1) ∧
    min e.1.1 e.2.1 ≤ px ∧ px ≤ max e.1.1 e.2.1 ∧
    min e.1.2 e.2.2 ≤ py ∧ py ≤ max e.1.2 e.2.2)

/-- Model of cv2.fillPoly restricted to a single pixel query: the pixel at
integer coordinates (px, py) is filled iff the point is interior to the
polygon under the even-odd rule (an odd number of ray crossings) or lies on
a polygon edge.  OpenCV fills the area bounded by the polygon with the
boundary included, resolving self-intersections by even-odd parity. -/
def fillPolyTest (P : List (ℤ × ℤ)) (px py : ℤ) : Bool :=
  decide ((polyEdges P).countP (rayCross px py) % 2 = 1) ||
  decide (0 < (polyEdges P).countP (onSegment px py))

/-- The integer pixel vertices computed in HeatMapSolver._rasterize_geometry
(simulation.py lines 56-57): the geometry coordinates are divided by the
grid resolution and converted with astype(np.int32), which truncates toward
zero. -/
def pixelVerts (cfg : Config) (geometry : List (ℚ × ℚ)) : List (ℤ × ℤ) :=
  geometry.map (fun p =>
    (pyInt (p.1 / cfg.grid_resolution), pyInt (p.2 / cfg.grid_resolution)))

/-- HeatMapSolver._rasterize_geometry (simulation.py lines 47-68): a zero
image of the given shape is allocated and cv2.fillPoly fills the truncated
integer polygon with ones; the result is read as a boolean mask.  A cell
(r, c) inside the image is true iff pixel (x = c, y = r) is filled; cells
outside the image bounds are false. -/
def rasterize_geometry (cfg : Config) (geometry : List (ℚ × ℚ))
    (rows cols : ℕ) : ℕ → ℕ → Bool :=
  fun r c =>
    decide (r < rows) && decide (c < cols) &&
      fillPolyTest (pixelVerts cfg geometry) (c : ℤ) (r : ℤ)

/-- The continuous cell center coordinate along one axis: index times
resolution plus half a resolution (used both by the spec rasterization
rule and by the heat-source distance test of solve_step). -/
def cellCenter (cfg : Config) (i : ℕ) : ℚ :=
  (i : ℚ) * cfg.grid_resolution + cfg.grid_resolution / 2

/-- Spec rule for one edge of the even-odd test at a continuous point
(px, py): the edge is a candidate iff exactly one of y1 > py, y2 > py
holds, the intersection x-coordinate is obtained by linear interpolation,
and the crossing counts iff that intersection lies strictly to the right
of the point. -/
def specEdgeCross (px py : ℚ) : (ℚ × ℚ) × (ℚ × ℚ) → Bool
  | ((x1, y1), (x2, y2)) =>
    (decide (y1 > py) != decide (y2 > py)) &&
    decide (px < x1 + (py - y1) * (x2 - x1) / (y2 - y1))

/-- Spec-side rasterization predicate (spec section 4.2): cell (r, c) is
interior iff a ray cast in the +x direction from the cell center, in
continuous meter coordinates, crosses an odd number of polygon edges. -/
def specCellInterior (cfg : Config) (geometry : List (ℚ × ℚ)) (r c : ℕ) :
    Bool :=
  decide ((polyEdges geometry).countP
    (specEdgeCross (cellCenter cfg c) (cellCenter cfg r)) % 2 = 1)

/-- Maximum of the x coordinates of a geometry, as np.max(poly[:, 0]) in
solve_step (simulation.py line 76).  np.max raises on an empty array; the
empty case is given the junk value 0 and is excluded by the nonemptiness
invariant of geometries. -/
def maxX : List (ℚ × ℚ) → ℚ
  | [] => 0
  | p :: ps => (ps.map Prod.fst).foldl max p.1

/-- Maximum of the y coordinates of a geometry, as np.max(poly[:, 1]) in
solve_step (simulation.py line 77). -/
def maxY : List (ℚ × ℚ) → ℚ
  | [] => 0
  | p :: ps => (ps.map Prod.snd).foldl max p.2

/-- Number of grid columns computed in solve_step (simulation.py lines
80-83): cols = int(np.ceil((max_x + 1.0) / dx)).  np.ceil produces the
exact ceiling and int() of that integral value is the identity, so the
composition is the integer ceiling; toNat reflects that numpy rejects a
negative dimension. -/
def gridCols (cfg : Config) (geometry : List (ℚ × ℚ)) : ℕ :=
  (⌈(maxX geometry + 1) / cfg.grid_resolution⌉).toNat

/-- Number of grid rows computed in solve_step (simulation.py lines 81-84):
rows = int(np.ceil((max_y + 1.0) / dx)). -/
def gridRows (cfg : Config) (geometry : List (ℚ × ℚ)) : ℕ :=
  (⌈(maxY geometry + 1) / cfg.grid_resolution⌉).toNat

/-- HeatMapSolver._get_geometry_hash (simulation.py lines 41-45): the md5
hex digest of the JSON dump of the geometry.  The JSON dump is injective on
vertex lists, and the hash is used only as a content key, so it is modelled
by the geometry itself (a collision-free stand-in). -/
def get_geometry_hash (geometry : List (ℚ × ℚ)) : List (ℚ × ℚ) := geometry

/-- Result of the mask lookup block of solve_step (simulation.py lines
86-99): the mask to use, the cache state afterwards, and whether the
rasterization branch executed. -/
structure MaskLookup where
  mask : ℕ → ℕ → Bool
  state : CacheState
  didRasterize : Bool

/-- The mask cache logic of solve_step (simulation.py lines 86-99): if a
mask is stored and both the stored geometry hash and the stored grid shape
match, the stored mask is used; otherwise the geometry is rasterized and
the single entry is replaced by the new mask, hash, and shape. -/
def getOrComputeMask (cfg : Config) (geometry : List (ℚ × ℚ))
    (rows cols : ℕ) (st : CacheState) : MaskLookup :=
  match st.cachedMask with
  | some m =>
    if st.lastGeometryHash = some (get_geometry_hash geometry) ∧
        st.cachedGridShape = some (rows, cols) then
      ⟨m, st, false⟩
    else
      ⟨rasterize_geometry cfg geometry rows cols,
        ⟨some (rasterize_geometry cfg geometry rows cols),
          some (get_geometry_hash geometry), some (rows, cols)⟩, true⟩
  | none =>
    ⟨rasterize_geometry cfg geometry rows cols,
      ⟨some (rasterize_geometry cfg geometry rows cols),
        some (get_geometry_hash geometry), some (rows, cols)⟩, true⟩

/-- A temperature grid handed between calls: its numpy shape plus the cell
values (a total function over indices; cells outside the shape are ghost
values that no in-range computation reads). -/
structure Grid where
  rows : ℕ
  cols : ℕ
  data : ℕ → ℕ → ℚ

/-- The fresh grid built in solve_step (simulation.py lines 103-104):
np.full of wall_temp, then every cell where the mask is true is set to
initial_room_temp. -/
def initGrid (cfg : Config) (mask : ℕ → ℕ → Bool) : ℕ → ℕ → ℚ :=
  fun r c => if mask r c then cfg.initial_room_temp else cfg.wall_temp

/-- The grid initialization branch of solve_step (simulation.py lines
101-104): if current_grid is None or its shape differs from (rows, cols), a
fresh grid is built; otherwise current_grid is used unchanged. -/
def initOrReuse (cfg : Config) (mask : ℕ → ℕ → Bool) (rows cols : ℕ) :
    Option Grid → ℕ → ℕ → ℚ
  | none => initGrid cfg mask
  | some g =>
    if (g.rows, g.cols) = (rows, cols) then g.data else initGrid cfg mask

/-- Lower row index of the heat-source bounding box (simulation.py line
113): r_start = int(max(0, (sy - sr) / dx)). -/
def rStart (cfg : Config) (s : HeatSource) : ℤ :=
  pyInt (max 0 ((s.y - s.radius) / cfg.grid_resolution))

/-- Upper row bound of the heat-source bounding box (simulation.py line
114): r_end = int(min(rows, (sy + sr) / dx + 1)). -/
def rEnd (cfg : Config) (rows : ℕ) (s : HeatSource) : ℤ :=
  pyInt (min (rows : ℚ) ((s.y + s.radius) / cfg.grid_resolution + 1))

/-- Lower column index of the heat-source bounding box (simulation.py line
115): c_start = int(max(0, (sx - sr) / dx)). -/
def cStart (cfg : Config) (s : HeatSource) : ℤ :=
  pyInt (max 0 ((s.x - s.radius) / cfg.grid_resolution))

/-- Upper column bound of the heat-source bounding box (simulation.py line
116): c_end = int(min(cols, (sx + sr) / dx + 1)). -/
def cEnd (cfg : Config) (cols : ℕ) (s : HeatSource) : ℤ :=
  pyInt (min (cols : ℚ) ((s.x + s.radius) / cfg.grid_resolution + 1))

/-- Squared Euclidean distance from the center of cell (r, c) to the heat
source center (simulation.py lines 119-123). -/
def distSq (cfg : Config) (s : HeatSource) (r c : ℕ) : ℚ :=
  (cellCenter cfg c - s.x) ^ 2 + (cellCenter cfg r - s.y) ^ 2

/-- Application of a single heat source (simulation.py lines 107-127): each
cell of the clipped bounding box whose center satisfies dist_sq <= radius^2
is set to the source temperature; all other cells keep their value. -/
def applySource (cfg : Config) (rows cols : ℕ) (g : ℕ → ℕ → ℚ)
    (s : HeatSource) : ℕ → ℕ → ℚ :=
  fun r c =>
    if rStart cfg s ≤ (r : ℤ) ∧ (r : ℤ) < rEnd cfg rows s ∧
        cStart cfg s ≤ (c : ℤ) ∧ (c : ℤ) < cEnd cfg cols s ∧
        distSq cfg s r c ≤ s.radius ^ 2 then
      s.temperature
    else g r c

/-- The heat-source loop of solve_step (simulation.py lines 106-127):
sources are applied in list order, each mutating the grid in place. -/
def applyHeatSources (cfg : Config) (rows cols : ℕ) (g : ℕ → ℕ → ℚ) :
    ℕ → ℕ → ℚ :=
  cfg.heat_sources.foldl (applySource cfg rows cols) g

/-- The unmasked finite-difference update of solve_step (simulation.py
lines 129-142): new = u + alpha * dt * (up + down + left + right - 4u)/dx^2,
where the four neighbors come from np.roll and therefore wrap around the
grid edges: np.roll(u, -1, axis=0) reads row (r + 1) mod rows and
np.roll(u, 1, axis=0) reads row (r - 1) mod rows, and likewise for
columns. -/
def stencilCell (cfg : Config) (rows cols : ℕ) (u : ℕ → ℕ → ℚ)
    (r c : ℕ) : ℚ :=
  u r c + cfg.thermal_diffusivity * cfg.time_step *
    ((u ((r + 1) % rows) c + u ((r + rows - 1) % rows) c +
      u r ((c + 1) % cols) + u r ((c + cols - 1) % cols) - 4 * u r c) /
      cfg.grid_resolution ^ 2)

/-- The full diffusion step of solve_step (simulation.py lines 129-146):
the stencil result everywhere, then new_grid[not mask] = wall_temp
overwrites every cell where the mask is false. -/
def diffusionStep (cfg : Config) (rows cols : ℕ) (mask : ℕ → ℕ → Bool)
    (u : ℕ → ℕ → ℚ) : ℕ → ℕ → ℚ :=
  fun r c =>
    if mask r c then stencilCell cfg rows cols u r c else cfg.wall_temp

/-- Everything observable about one call of solve_step: the computed grid
shape, the mask that was used, the grid entering the heat-source stage
(the local current_grid after initialization), the returned grid, the cache
state after the call, and whether the rasterization branch executed.  The
extra fields record the local variables of solve_step so that the claims
can speak about them. -/
structure StepResult where
  rows : ℕ
  cols : ℕ
  mask : ℕ → ℕ → Bool
  gridIn : ℕ → ℕ → ℚ
  grid : ℕ → ℕ → ℚ
  state : CacheState
  didRasterize : Bool

/-- HeatMapSolver.solve_step (simulation.py lines 70-147): compute the grid
shape from the geometry bounding box plus 1.0 meter of padding, look up or
compute the mask, initialize or reuse the grid, stamp the heat sources, and
perform one diffusion step with the wall reset. -/
def solve_step (cfg : Config) (geometry : List (ℚ × ℚ))
    (currentGrid : Option Grid) (st : CacheState) : StepResult :=
  let rows := gridRows cfg geometry
  let cols := gridCols cfg geometry
  let lk := getOrComputeMask cfg geometry rows cols st
  let gridIn := initOrReuse cfg lk.mask rows cols currentGrid
  let heated := applyHeatSources cfg rows cols gridIn
  { rows := rows
    cols := cols
    mask := lk.mask
    gridIn := gridIn
    grid := diffusionStep cfg rows cols lk.mask heated
    state := lk.state
    didRasterize := lk.didRasterize }

/-- Well-formedness of the single-slot cache: whatever complete entry is
stored was produced by the rasterizer for the stored geometry and shape.
The initial cache satisfies this vacuously and every solve_step preserves
it. -/
def CacheWF (cfg : Config) (st : CacheState) : Prop :=
  ∀ (m : ℕ → ℕ → Bool) (g : List (ℚ × ℚ)) (shp : ℕ × ℕ),
    st.cachedMask = some m → st.lastGeometryHash = some g →
    st.cachedGridShape = some shp → m = rasterize_geometry cfg g shp.1 shp.2

/-- The diffusion update as worded by claim C1: the four axis-aligned
neighbors with explicit wrap-around at the grid edges (row 0 reads row
rows - 1 as its second vertical neighbor, and the last row reads row 0),
and wall_temp wherever the mask is false. -/
def specDiffusionCell (cfg : Config) (rows cols : ℕ) (mask : ℕ → ℕ → Bool)
    (u : ℕ → ℕ → ℚ) (r c : ℕ) : ℚ :=
  if mask r c then
    u r c + cfg.thermal_diffusivity * cfg.time_step *
      ((u (if r + 1 = rows then 0 else r + 1) c +
        u (if r = 0 then rows - 1 else r - 1) c +
        u r (if c + 1 = cols then 0 else c + 1) +
        u r (if c = 0 then cols - 1 else c - 1) -
        4 * u r c) / cfg.grid_resolution ^ 2)
  else cfg.wall_temp

/-- The heat-source semantics as worded by claim C5: walk the source list
in order, and every source whose radius covers the cell center (tested as
squared distance at most squared radius) overwrites the running value, so
the last covering source in the list wins; a cell covered by no source
keeps its prior value. -/
def lastCoveringTemp (cfg : Config) (sources : List HeatSource) (r c : ℕ)
    (prior : ℚ) : ℚ :=
  sources.foldl
    (fun acc s => if distSq cfg s r c ≤ s.radius ^ 2 then s.temperature else acc)
    prior

/-- Concrete configuration used by the witnesses: dx = 1, dt = 1/8,
alpha = 1/2 (stability limit 1/2), wall_temp = 0, initial_room_temp = 20,
one heat source of radius 1/2 at (1/2, 1/2) with temperature 50. -/
def cfgW : Config :=
  { grid_resolution := 1
    time_step := 1 / 8
    thermal_diffusivity := 1 / 2
    wall_temp := 0
    initial_room_temp := 20
    heat_sources := [⟨1 / 2, 1 / 2, 1 / 2, 50⟩] }

/-- The square room polygon of the spec test table:
[[0,0],[2,0],[2,2],[0,2]], in meters. -/
def sqW : List (ℚ × ℚ) := [(0, 0), (2, 0), (2, 2), (0, 2)]

/-- A second polygon (a triangle), used by witnesses that need two distinct
geometries. -/
def triW : List (ℚ × ℚ) := [(0, 0), (3, 0), (0, 3)]

/-- A second, nonempty cache state used by witnesses: the entry stored for
the triangle at shape 4 x 4. -/
def otherCache : CacheState :=
  ⟨some (rasterize_geometry cfgW triW 4 4), some triW, some (4, 4)⟩

/-- A concrete 3 x 3 grid of constant temperature 20. -/
def gridW : Grid := ⟨3, 3, fun _ _ => 20⟩

/-- A concrete 4 x 4 grid (shape mismatched with the square geometry). -/
def gridW4 : Grid := ⟨4, 4, fun _ _ => 20⟩

/-- Claim C3: solver construction fails with a stability error exactly when
time_step > grid_resolution^2 / (4 * thermal_diffusivity); at or below the
bound it succeeds; the error carries the offending dt and the computed
limit; and any successfully constructed solver (the only object that can
accept steps) satisfies the bound. -/
theorem claim3_cfl_construction (cfg : Config) :
    mkSolver cfg =
      (if stabilityLimit cfg < cfg.time_step then
        Except.error ⟨cfg.time_step, stabilityLimit cfg⟩
      else
        Except.ok ⟨cfg, initialCache⟩) ∧
    (∀ s : Solver, mkSolver cfg = Except.ok s →
      cfg.time_step ≤ stabilityLimit cfg) := by
  constructor
  · by_cases h : stabilityLimit cfg < cfg.time_step <;>
      simp [mkSolver, validate_stability, h]
  · intro s hs
    by_cases h : stabilityLimit cfg < cfg.time_step
    · simp [mkSolver, validate_stability, h] at hs
    · exact le_of_not_lt h

/-- Witness for C3: the concrete configuration cfgW satisfies the bound, so
construction succeeds and the theorem yields the bound for it. -/
theorem claim3_witness :
    mkSolver cfgW = Except.ok ⟨cfgW, initialCache⟩ ∧
    cfgW.time_step ≤ stabilityLimit cfgW := by
  have hok : mkSolver cfgW = Except.ok ⟨cfgW, initialCache⟩ := by
    have h : ¬ stabilityLimit cfgW < cfgW.time_step := by
      norm_num [stabilityLimit, cfgW]
    simp [mkSolver, validate_stability, h]
  exact ⟨hok, (claim3_cfl_construction cfgW).2 ⟨cfgW, initialCache⟩ hok⟩

/-- Reversing two lists of equal length commutes with zipping them. -/
lemma zip_reverse_of_length_eq {α β : Type} :
    ∀ (A : List α) (B : List β), A.length = B.length →
      (A.zip B).reverse = A.reverse.zip B.reverse
  | [], [], _ => rfl
  | [], _ :: _, h => by simp at h
  | _ :: _, [], h => by simp at h
  | a :: A, b :: B, h => by
    have hl : A.length = B.length := by simpa using h
    have ih := zip_reverse_of_length_eq A B hl
    simp only [List.zip_cons_cons, List.reverse_cons, ih]
    rw [List.zip_append (by simp [hl])]
    simp

/-- Rotating a vertex cycle by one permutes its closed edge list. -/
lemma polyEdges_rotate_one {α : Type} (P : List α) :
    List.Perm (polyEdges (P.rotate 1)) (polyEdges P) := by
  match P with
  | [] => simp [polyEdges]
  | [p] => simp [polyEdges]
  | p :: q :: qs =>
    have h1 : (p :: q :: qs).rotate 1 = (q :: qs) ++ [p] := by
      simpa using List.rotate_cons_succ (q :: qs) p 0
    have h2 : ((q :: qs) ++ [p]).rotate 1 = (qs ++ [p]) ++ [q] := by
      simpa using List.rotate_cons_succ (qs ++ [p]) q 0
    unfold polyEdges
    rw [h1, h2, List.zip_append (by simp)]
    simp only [List.cons_append, List.zip_cons_cons, List.zip_nil_right,
      List.nil_append]
    simpa using List.perm_append_singleton (p, q) ((q :: qs).zip (qs ++ [p]))

/-- Starting the vertex cycle at any other vertex permutes the closed edge
list. -/
lemma polyEdges_rotate {α : Type} (P : List α) (k : ℕ) :
    List.Perm (polyEdges (P.rotate k)) (polyEdges P) := by
  induction k with
  | zero => simp
  | succ k ih =>
    have h : P.rotate (k + 1) = (P.rotate k).rotate 1 := by
      rw [List.rotate_rotate]
    rw [h]
    exact (polyEdges_rotate_one (P.rotate k)).trans ih

/-- Reversing the vertex cycle turns the closed edge list into a permutation
of the endpoint-swapped edges. -/
lemma polyEdges_reverse_perm {α : Type} (P : List α) :
    List.Perm (polyEdges P.reverse) ((polyEdges P).map Prod.swap) := by
  match P with
  | [] => simp [polyEdges]
  | [p] => simp [polyEdges]
  | p :: q :: qs =>
    set Q : List α := p :: q :: qs with hQ
    have hlen : 1 % Q.length = 1 := Nat.mod_eq_of_lt (by simp [hQ])
    have h1 : Q.reverse.rotate 1 = (Q.rotate (Q.length - 1)).reverse := by
      rw [List.rotate_reverse, hlen]
    have h2 : (Q.rotate (Q.length - 1)).rotate 1 = Q := by
      rw [List.rotate_rotate, Nat.sub_add_cancel (by simp [hQ]), List.rotate_length]
    have h3 : polyEdges Q.reverse =
        ((polyEdges (Q.rotate (Q.length - 1))).map Prod.swap).reverse := by
      unfold polyEdges
      rw [h1, ← zip_reverse_of_length_eq _ _ (by simp), List.zip_swap, h2]
    rw [h3]
    exact (List.reverse_perm _).trans
      (((polyEdges_rotate Q (Q.length - 1))).map Prod.swap)

/-- The ray-crossing test does not depend on the orientation of the edge. -/
lemma rayCross_swap (px py : ℤ) (a b : ℤ × ℤ) :
    rayCross px py (b, a) = rayCross px py (a, b) := by
  unfold rayCross
  congr 1
  · exact decide_eq_decide.mpr or_comm
  · exact decide_eq_decide.mpr (by constructor <;> (intro h; nlinarith))

/-- Segment membership does not depend on the orientation of the edge. -/
lemma onSegment_swap (px py : ℤ) (a b : ℤ × ℤ) :
    onSegment px py (b, a) = onSegment px py (a, b) := by
  obtain ⟨x1, y1⟩ := a
  obtain ⟨x2, y2⟩ := b
  simp only [onSegment]
  apply decide_eq_decide.mpr
  constructor <;>
    · rintro ⟨hc, h1, h2, h3, h4⟩
      refine ⟨by linear_combination -hc, ?_, ?_, ?_, ?_⟩ <;> omega

/-- The fill test is invariant under a permutation of the edge list. -/
lemma fillPolyTest_congr (P Q : List (ℤ × ℤ)) (px py : ℤ)
    (h : List.Perm (polyEdges Q) (polyEdges P)) :
    fillPolyTest Q px py = fillPolyTest P px py := by
  unfold fillPolyTest
  rw [h.countP_eq, h.countP_eq]

/-- The fill test is also invariant under a permutation onto the swapped
edges, because both per-edge predicates are orientation-independent. -/
lemma fillPolyTest_congr_swap (P Q : List (ℤ × ℤ)) (px py : ℤ)
    (h : List.Perm (polyEdges Q) ((polyEdges P).map Prod.swap)) :
    fillPolyTest Q px py = fillPolyTest P px py := by
  have hray : ∀ e : (ℤ × ℤ) × (ℤ × ℤ),
      rayCross px py (Prod.swap e) = rayCross px py e := by
    intro ⟨a, b⟩
    exact rayCross_swap px py a b
  have hseg : ∀ e : (ℤ × ℤ) × (ℤ × ℤ),
      onSegment px py (Prod.swap e) = onSegment px py e := by
    intro ⟨a, b⟩
    exact onSegment_swap px py a b
  unfold fillPolyTest
  rw [h.countP_eq, h.countP_eq, List.countP_map, List.countP_map]
  rw [show (rayCross px py ∘ Prod.swap) = rayCross px py from funext hray]
  rw [show (onSegment px py ∘ Prod.swap) = onSegment px py from funext hseg]

/-- Claim C8: the rasterizer produces identical masks for geometrically
equivalent polygons: the same vertex cycle started at a different vertex
(rotation of the vertex list) or traversed in the opposite direction
(reversal of the vertex list). -/
theorem claim8_rasterize_equiv (cfg : Config) (geometry : List (ℚ × ℚ))
    (rows cols : ℕ) (k : ℕ) :
    rasterize_geometry cfg (geometry.rotate k) rows cols =
      rasterize_geometry cfg geometry rows cols ∧
    rasterize_geometry cfg geometry.reverse rows cols =
      rasterize_geometry cfg geometry rows cols := by
  constructor
  · funext r c
    unfold rasterize_geometry
    have hpx : pixelVerts cfg (geometry.rotate k) = (pixelVerts cfg geometry).rotate k := by
      unfold pixelVerts
      exact List.map_rotate _ _ _
    rw [hpx, fillPolyTest_congr _ _ _ _ (polyEdges_rotate (pixelVerts cfg geometry) k)]
  · funext r c
    unfold rasterize_geometry
    have hpx : pixelVerts cfg geometry.reverse = (pixelVerts cfg geometry).reverse := by
      unfold pixelVerts
      exact List.map_reverse _ _
    rw [hpx, fillPolyTest_congr_swap _ _ _ _ (polyEdges_reverse_perm (pixelVerts cfg geometry))]

/-- At resolution 1, the truncated pixel vertices of the square polygon are
the same four integer points. -/
lemma pixelVerts_sqW : pixelVerts cfgW sqW = [(0, 0), (2, 0), (2, 2), (0, 2)] := by
  simp [pixelVerts, sqW, cfgW, pyInt]

/-- The closed edge cycle of the square polygon. -/
lemma polyEdges_sqW :
    polyEdges sqW = [((0, 0), (2, 0)), ((2, 0), (2, 2)),
      ((2, 2), (0, 2)), ((0, 2), (0, 0))] := rfl

/-- Counterexample to claim C2: for the square [[0,0],[2,0],[2,2],[0,2]] at
dx = 1 over the 3x3 grid, the mask produced by the code is true at cell
(2, 2) (the pixel (2, 2) is a vertex of the filled polygon, and cv2.fillPoly
includes the boundary), while the cell center (5/2, 5/2) is not interior to
the polygon under the even-odd rule, so the claimed iff fails there: the
claim demands exactly the four cells with centers strictly inside, but the
code marks nine. -/
theorem claim2_counterexample :
    rasterize_geometry cfgW sqW 3 3 2 2 = true ∧
    specCellInterior cfgW sqW 2 2 = false := by
  constructor
  · unfold rasterize_geometry
    rw [pixelVerts_sqW]
    decide
  · unfold specCellInterior
    rw [polyEdges_sqW]
    norm_num [specEdgeCross, cellCenter, cfgW, List.countP, List.countP.go]

/-- Claim C2 as amended: the mask equals the boundary-inclusive even-odd
fill of the polygon whose vertices are the geometry coordinates divided by
dx and truncated to integers, evaluated at integer pixel (x = c, y = r),
and false outside the grid; in particular, for the square
[[0,0],[2,0],[2,2],[0,2]] at dx = 1 over the 3x3 grid, all nine grid cells
are marked interior. -/
theorem claim2_amended_mask :
    (∀ (cfg : Config) (geometry : List (ℚ × ℚ)) (rows cols r c : ℕ),
      rasterize_geometry cfg geometry rows cols r c =
        (decide (r < rows) && decide (c < cols) &&
          fillPolyTest (pixelVerts cfg geometry) (c : ℤ) (r : ℤ))) ∧
    (∀ r c : ℕ, rasterize_geometry cfgW sqW 3 3 r c = decide (r < 3 ∧ c < 3)) := by
  constructor
  · intro cfg geometry rows cols r c
    rfl
  · intro r c
    by_cases hr : r < 3
    · by_cases hc : c < 3
      · interval_cases r <;> interval_cases c <;>
          (unfold rasterize_geometry; rw [pixelVerts_sqW]; decide)
      · unfold rasterize_geometry
        simp [hr, hc]
    · unfold rasterize_geometry
      simp [hr]

/-- Claim C1: for every grid, mask and configuration, one diffusion step
computes, at every cell where the mask is true,
new = u + alpha * dt * (up + down + left + right - 4u) / dx^2 with the four
axis-aligned neighbors taken with wrap-around indexing at the grid edges
(row 0 and row rows - 1 are vertical neighbors, and likewise for columns),
and at every cell where the mask is false the returned value is exactly
wall_temp, overwriting whatever the stencil produced there. -/
theorem claim1_diffusion_stencil (cfg : Config) (rows cols : ℕ)
    (mask : ℕ → ℕ → Bool) (u : ℕ → ℕ → ℚ) (r c : ℕ)
    (hr : r < rows) (hc : c < cols) :
    diffusionStep cfg rows cols mask u r c =
      specDiffusionCell cfg rows cols mask u r c := by
  unfold diffusionStep specDiffusionCell stencilCell
  have h1 : (r + 1) % rows = if r + 1 = rows then 0 else r + 1 := by
    split
    · next h => rw [h, Nat.mod_self]
    · next h => exact Nat.mod_eq_of_lt (by omega)
  have h2 : (r + rows - 1) % rows = if r = 0 then rows - 1 else r - 1 := by
    split
    · next h =>
        subst h
        rw [Nat.zero_add]
        exact Nat.mod_eq_of_lt (by omega)
    · next h =>
        have hsplit : r + rows - 1 = (r - 1) + rows := by omega
        rw [hsplit, Nat.add_mod_right]
        exact Nat.mod_eq_of_lt (by omega)
  have h3 : (c + 1) % cols = if c + 1 = cols then 0 else c + 1 := by
    split
    · next h => rw [h, Nat.mod_self]
    · next h => exact Nat.mod_eq_of_lt (by omega)
  have h4 : (c + cols - 1) % cols = if c = 0 then cols - 1 else c - 1 := by
    split
    · next h =>
        subst h
        rw [Nat.zero_add]
        exact Nat.mod_eq_of_lt (by omega)
    · next h =>
        have hsplit : c + cols - 1 = (c - 1) + cols := by omega
        rw [hsplit, Nat.add_mod_right]
        exact Nat.mod_eq_of_lt (by omega)
  rw [h1, h2, h3, h4]

/-- Witness for C1: the theorem applied at cell (1, 1) of the 3x3 grid of
the square geometry, on the freshly initialized grid. -/
theorem claim1_witness :
    1 < 3 ∧
    diffusionStep cfgW 3 3 (rasterize_geometry cfgW sqW 3 3)
        (initGrid cfgW (rasterize_geometry cfgW sqW 3 3)) 1 1 =
      specDiffusionCell cfgW 3 3 (rasterize_geometry cfgW sqW 3 3)
        (initGrid cfgW (rasterize_geometry cfgW sqW 3 3)) 1 1 :=
  ⟨by decide,
    claim1_diffusion_stencil cfgW 3 3 (rasterize_geometry cfgW sqW 3 3)
      (initGrid cfgW (rasterize_geometry cfgW sqW 3 3)) 1 1
      (by decide) (by decide)⟩

/-- Claim C4: if current_grid is absent or its shape differs from the target
shape, the grid entering the heat-source stage is a fresh grid that is
wall_temp everywhere except initial_room_temp where the mask is true;
otherwise the supplied grid is carried forward unchanged into the
heat-source stage.  A shape mismatch (for example a geometry whose bounding
box grew between calls) reinitializes rather than erroring: solve_step is
total. -/
theorem claim4_grid_init_reuse (cfg : Config) (geometry : List (ℚ × ℚ))
    (st : CacheState) :
    ((solve_step cfg geometry none st).gridIn = fun r c =>
      if (solve_step cfg geometry none st).mask r c then
        cfg.initial_room_temp else cfg.wall_temp) ∧
    (∀ g : Grid,
      (g.rows, g.cols) = ((solve_step cfg geometry (some g) st).rows,
        (solve_step cfg geometry (some g) st).cols) →
      (solve_step cfg geometry (some g) st).gridIn = g.data) ∧
    (∀ g : Grid,
      (g.rows, g.cols) ≠ ((solve_step cfg geometry (some g) st).rows,
        (solve_step cfg geometry (some g) st).cols) →
      (solve_step cfg geometry (some g) st).gridIn = fun r c =>
        if (solve_step cfg geometry (some g) st).mask r c then
          cfg.initial_room_temp else cfg.wall_temp) := by
  refine ⟨rfl, ?_, ?_⟩
  · intro g h
    have h2 : (g.rows, g.cols) = (gridRows cfg geometry, gridCols cfg geometry) := h
    show initOrReuse cfg
      (getOrComputeMask cfg geometry (gridRows cfg geometry)
        (gridCols cfg geometry) st).mask
      (gridRows cfg geometry) (gridCols cfg geometry) (some g) = g.data
    simp only [initOrReuse]
    rw [if_pos h2]
  · intro g h
    have h2 : (g.rows, g.cols) ≠ (gridRows cfg geometry, gridCols cfg geometry) := h
    show initOrReuse cfg
      (getOrComputeMask cfg geometry (gridRows cfg geometry)
        (gridCols cfg geometry) st).mask
      (gridRows cfg geometry) (gridCols cfg geometry) (some g) = _
    simp only [initOrReuse]
    rw [if_neg h2]
    rfl

/-- Witness for C4: the 3x3 grid matches the target shape of the square
geometry, so it is carried forward unchanged into the heat-source stage. -/
theorem claim4_witness :
    (gridW.rows, gridW.cols) = ((solve_step cfgW sqW (some gridW) initialCache).rows,
      (solve_step cfgW sqW (some gridW) initialCache).cols) ∧
    (solve_step cfgW sqW (some gridW) initialCache).gridIn = gridW.data := by
  have h : (gridW.rows, gridW.cols) =
      ((solve_step cfgW sqW (some gridW) initialCache).rows,
        (solve_step cfgW sqW (some gridW) initialCache).cols) := by
    show ((3 : ℕ), (3 : ℕ)) = (gridRows cfgW sqW, gridCols cfgW sqW)
    norm_num [gridRows, gridCols, maxX, maxY, sqW, cfgW, List.foldl]
    all_goals decide
  exact ⟨h, (claim4_grid_init_reuse cfgW sqW initialCache).2.1 gridW h⟩

/-- A freshly stored cache entry is well-formed. -/
lemma cacheWF_fresh (cfg : Config) (geometry : List (ℚ × ℚ)) (rows cols : ℕ) :
    CacheWF cfg ⟨some (rasterize_geometry cfg geometry rows cols),
      some (get_geometry_hash geometry), some (rows, cols)⟩ := by
  intro m g shp h1 h2 h3
  injection h1 with e1
  injection h2 with e2
  injection h3 with e3
  subst e2
  subst e3
  exact e1.symm

/-- The empty cache of a freshly constructed solver is well-formed. -/
lemma cacheWF_initial (cfg : Config) : CacheWF cfg initialCache := by
  intro m g shp h1 _ _
  exact Option.noConfusion h1

/-- Under a well-formed cache, the mask used by the lookup is exactly the
rasterizer output for the current geometry and shape. -/
lemma getOrComputeMask_mask (cfg : Config) (geometry : List (ℚ × ℚ))
    (rows cols : ℕ) (st : CacheState) (hwf : CacheWF cfg st) :
    (getOrComputeMask cfg geometry rows cols st).mask =
      rasterize_geometry cfg geometry rows cols := by
  cases hm : st.cachedMask with
  | none => simp only [getOrComputeMask, hm]
  | some m =>
    simp only [getOrComputeMask, hm]
    by_cases hcond : st.lastGeometryHash = some (get_geometry_hash geometry) ∧
        st.cachedGridShape = some (rows, cols)
    · rw [if_pos hcond]
      exact hwf m geometry (rows, cols) hm hcond.1 hcond.2
    · rw [if_neg hcond]

/-- Every lookup leaves the cache well-formed. -/
lemma getOrComputeMask_wf (cfg : Config) (geometry : List (ℚ × ℚ))
    (rows cols : ℕ) (st : CacheState) (hwf : CacheWF cfg st) :
    CacheWF cfg (getOrComputeMask cfg geometry rows cols st).state := by
  cases hm : st.cachedMask with
  | none =>
    simp only [getOrComputeMask, hm]
    exact cacheWF_fresh cfg geometry rows cols
  | some m =>
    simp only [getOrComputeMask, hm]
    by_cases hcond : st.lastGeometryHash = some (get_geometry_hash geometry) ∧
        st.cachedGridShape = some (rows, cols)
    · rw [if_pos hcond]
      exact hwf
    · rw [if_neg hcond]
      exact cacheWF_fresh cfg geometry rows cols

/-- After any lookup, the cache holds a complete entry for the geometry and
shape that were just requested. -/
lemma getOrComputeMask_state_fields (cfg : Config) (geometry : List (ℚ × ℚ))
    (rows cols : ℕ) (st : CacheState) :
    (∃ mm, (getOrComputeMask cfg geometry rows cols st).state.cachedMask = some mm) ∧
    (getOrComputeMask cfg geometry rows cols st).state.lastGeometryHash =
      some (get_geometry_hash geometry) ∧
    (getOrComputeMask cfg geometry rows cols st).state.cachedGridShape =
      some (rows, cols) := by
  cases hm : st.cachedMask with
  | none => simp [getOrComputeMask, hm]
  | some m =>
    simp only [getOrComputeMask, hm]
    by_cases hcond : st.lastGeometryHash = some (get_geometry_hash geometry) ∧
        st.cachedGridShape = some (rows, cols)
    · rw [if_pos hcond]
      exact ⟨⟨m, hm⟩, hcond.1, hcond.2⟩
    · rw [if_neg hcond]
      exact ⟨⟨_, rfl⟩, rfl, rfl⟩

/-- Claim C6: the single-slot mask cache is transparent.  Under the cache
invariant, the mask used always equals the rasterizer output for the
current geometry and shape; a hit (stored hash and stored shape both match)
returns the stored mask without rasterizing; a miss rasterizes and replaces
the single entry wholesale; an immediately repeated identical call does not
rasterize; and a call whose geometry hash differs (for example after
changing one vertex coordinate) rasterizes again. -/
theorem claim6_mask_cache (cfg : Config) (geometry : List (ℚ × ℚ))
    (rows cols : ℕ) (st : CacheState) (hwf : CacheWF cfg st) :
    ((getOrComputeMask cfg geometry rows cols st).mask =
      rasterize_geometry cfg geometry rows cols) ∧
    (∀ m, st.cachedMask = some m →
      st.lastGeometryHash = some (get_geometry_hash geometry) →
      st.cachedGridShape = some (rows, cols) →
      getOrComputeMask cfg geometry rows cols st = ⟨m, st, false⟩) ∧
    ((st.cachedMask = none ∨
      st.lastGeometryHash ≠ some (get_geometry_hash geometry) ∨
      st.cachedGridShape ≠ some (rows, cols)) →
      getOrComputeMask cfg geometry rows cols st =
        ⟨rasterize_geometry cfg geometry rows cols,
          ⟨some (rasterize_geometry cfg geometry rows cols),
            some (get_geometry_hash geometry), some (rows, cols)⟩, true⟩) ∧
    ((getOrComputeMask cfg geometry rows cols
      (getOrComputeMask cfg geometry rows cols st).state).didRasterize = false) ∧
    (∀ (geometry2 : List (ℚ × ℚ)) (rows2 cols2 : ℕ),
      get_geometry_hash geometry2 ≠ get_geometry_hash geometry →
      (getOrComputeMask cfg geometry2 rows2 cols2
        (getOrComputeMask cfg geometry rows cols st).state).didRasterize = true) := by
  refine ⟨getOrComputeMask_mask cfg geometry rows cols st hwf, ?_, ?_, ?_, ?_⟩
  · intro m hm hh hs
    simp only [getOrComputeMask, hm]
    rw [if_pos ⟨hh, hs⟩]
  · intro hmiss
    cases hm : st.cachedMask with
    | none => simp only [getOrComputeMask, hm]
    | some m =>
      simp only [getOrComputeMask, hm]
      rw [if_neg]
      rintro ⟨hh, hs⟩
      rcases hmiss with h | h | h
      · rw [hm] at h
        exact Option.noConfusion h
      · exact h hh
      · exact h hs
  · obtain ⟨⟨mm, hmm⟩, hh, hs⟩ :=
      getOrComputeMask_state_fields cfg geometry rows cols st
    generalize hst2 : (getOrComputeMask cfg geometry rows cols st).state = st2 at hmm hh hs ⊢
    simp only [getOrComputeMask, hmm]
    rw [if_pos ⟨hh, hs⟩]
  · intro geometry2 rows2 cols2 hne
    obtain ⟨⟨mm, hmm⟩, hh, hs⟩ :=
      getOrComputeMask_state_fields cfg geometry rows cols st
    generalize hst2 : (getOrComputeMask cfg geometry rows cols st).state = st2 at hmm hh hs ⊢
    simp only [getOrComputeMask, hmm]
    rw [if_neg]
    rintro ⟨hh2, _⟩
    rw [hh] at hh2
    injection hh2 with e
    exact hne e.symm

/-- Witness for C6: starting from the empty (well-formed) cache, the mask
used for the square geometry is the rasterizer output. -/
theorem claim6_witness :
    CacheWF cfgW initialCache ∧
    (getOrComputeMask cfgW sqW 3 3 initialCache).mask =
      rasterize_geometry cfgW sqW 3 3 :=
  ⟨cacheWF_initial cfgW,
    (claim6_mask_cache cfgW sqW 3 3 initialCache (cacheWF_initial cfgW)).1⟩

/-- Cells outside the requested shape are never marked by the rasterizer. -/
lemma rasterize_out_of_range (cfg : Config) (geometry : List (ℚ × ℚ))
    (rows cols r c : ℕ) (h : rows ≤ r ∨ cols ≤ c) :
    rasterize_geometry cfg geometry rows cols r c = false := by
  unfold rasterize_geometry
  rcases h with h | h
  · simp [Nat.not_lt.mpr h]
  · simp [Nat.not_lt.mpr h]

/-- Claim C7: the grid returned by solve_step has
rows = ceil((max_y + 1)/dx) and cols = ceil((max_x + 1)/dx), computed from
the maxima of the geometry coordinates, and the mask used to produce it has
the same shape: it is false at every cell outside rows x cols. -/
theorem claim7_grid_shape (cfg : Config) (geometry : List (ℚ × ℚ))
    (cur : Option Grid) (st : CacheState) (hwf : CacheWF cfg st)
    (hne : geometry ≠ []) (hdx : 0 < cfg.grid_resolution)
    (hx : 0 ≤ maxX geometry) (hy : 0 ≤ maxY geometry) :
    (((solve_step cfg geometry cur st).rows : ℤ) =
      ⌈(maxY geometry + 1) / cfg.grid_resolution⌉) ∧
    (((solve_step cfg geometry cur st).cols : ℤ) =
      ⌈(maxX geometry + 1) / cfg.grid_resolution⌉) ∧
    (∀ r c : ℕ,
      (solve_step cfg geometry cur st).rows ≤ r ∨
        (solve_step cfg geometry cur st).cols ≤ c →
      (solve_step cfg geometry cur st).mask r c = false) := by
  have hceilY : 0 ≤ ⌈(maxY geometry + 1) / cfg.grid_resolution⌉ :=
    le_of_lt (Int.ceil_pos.mpr (div_pos (by linarith) hdx))
  have hceilX : 0 ≤ ⌈(maxX geometry + 1) / cfg.grid_resolution⌉ :=
    le_of_lt (Int.ceil_pos.mpr (div_pos (by linarith) hdx))
  refine ⟨?_, ?_, ?_⟩
  · show ((gridRows cfg geometry : ℤ) = _)
    unfold gridRows
    exact Int.toNat_of_nonneg hceilY
  · show ((gridCols cfg geometry : ℤ) = _)
    unfold gridCols
    exact Int.toNat_of_nonneg hceilX
  · intro r c h
    show (getOrComputeMask cfg geometry (gridRows cfg geometry)
      (gridCols cfg geometry) st).mask r c = false
    rw [getOrComputeMask_mask cfg geometry _ _ st hwf]
    exact rasterize_out_of_range cfg geometry _ _ r c h

/-- Witness for C7: the square geometry over the empty cache gives a 3 x 3
grid, matching the ceiling formula. -/
theorem claim7_witness :
    CacheWF cfgW initialCache ∧ sqW ≠ [] ∧ 0 < cfgW.grid_resolution ∧
    0 ≤ maxX sqW ∧ 0 ≤ maxY sqW ∧
    ((solve_step cfgW sqW none initialCache).rows : ℤ) =
      ⌈(maxY sqW + 1) / cfgW.grid_resolution⌉ := by
  have hx : 0 ≤ maxX sqW := by norm_num [maxX, sqW, List.foldl]
  have hy : 0 ≤ maxY sqW := by norm_num [maxY, sqW, List.foldl]
  have hdx : 0 < cfgW.grid_resolution := by norm_num [cfgW]
  have hne : sqW ≠ [] := by simp [sqW]
  exact ⟨cacheWF_initial cfgW, hne, hdx, hx, hy,
    (claim7_grid_shape cfgW sqW none initialCache (cacheWF_initial cfgW)
      hne hdx hx hy).1⟩

/-- Claim C9: solve_step is deterministic given its inputs, regardless of
the mask cache state: any two well-formed cache states produce the same
grid for the same geometry and current grid, and in particular calling
solve_step with geometry and None twice in a row (the second call running
on the cache left by the first) yields the same grid both times. -/
theorem claim9_determinism (cfg : Config) (geometry : List (ℚ × ℚ))
    (cur : Option Grid) (st st2 : CacheState)
    (h1 : CacheWF cfg st) (h2 : CacheWF cfg st2) :
    ((solve_step cfg geometry cur st).grid =
      (solve_step cfg geometry cur st2).grid) ∧
    ((solve_step cfg geometry none
        ((solve_step cfg geometry none st).state)).grid =
      (solve_step cfg geometry none st).grid) := by
  have key : ∀ (curX : Option Grid) (stA stB : CacheState),
      CacheWF cfg stA → CacheWF cfg stB →
      (solve_step cfg geometry curX stA).grid =
        (solve_step cfg geometry curX stB).grid := by
    intro curX stA stB hA hB
    show diffusionStep cfg (gridRows cfg geometry) (gridCols cfg geometry)
        (getOrComputeMask cfg geometry (gridRows cfg geometry)
          (gridCols cfg geometry) stA).mask
        (applyHeatSources cfg (gridRows cfg geometry) (gridCols cfg geometry)
          (initOrReuse cfg
            (getOrComputeMask cfg geometry (gridRows cfg geometry)
              (gridCols cfg geometry) stA).mask
            (gridRows cfg geometry) (gridCols cfg geometry) curX)) =
      diffusionStep cfg (gridRows cfg geometry) (gridCols cfg geometry)
        (getOrComputeMask cfg geometry (gridRows cfg geometry)
          (gridCols cfg geometry) stB).mask
        (applyHeatSources cfg (gridRows cfg geometry) (gridCols cfg geometry)
          (initOrReuse cfg
            (getOrComputeMask cfg geometry (gridRows cfg geometry)
              (gridCols cfg geometry) stB).mask
            (gridRows cfg geometry) (gridCols cfg geometry) curX))
    rw [getOrComputeMask_mask cfg geometry _ _ stA hA,
      getOrComputeMask_mask cfg geometry _ _ stB hB]
  refine ⟨key cur st st2 h1 h2, ?_⟩
  have hwf2 : CacheWF cfg ((solve_step cfg geometry none st).state) :=
    getOrComputeMask_wf cfg geometry _ _ st h1
  exact key none _ st hwf2 h1

/-- Witness for C9: the empty cache and a cache holding the triangle entry
are both well-formed, and solve_step on the square geometry from either
cache state returns the same grid. -/
theorem claim9_witness :
    CacheWF cfgW initialCache ∧ CacheWF cfgW otherCache ∧
    (solve_step cfgW sqW none initialCache).grid =
      (solve_step cfgW sqW none otherCache).grid := by
  have hother : CacheWF cfgW otherCache := by
    intro m g shp hm hg hs
    injection hm with e1
    injection hg with e2
    injection hs with e3
    subst e2
    subst e3
    exact e1.symm
  exact ⟨cacheWF_initial cfgW, hother,
    (claim9_determinism cfgW sqW none initialCache otherCache
      (cacheWF_initial cfgW) hother).1⟩

/-- Claim C10: discrete maximum principle.  When the configuration satisfies
the stability bound dt <= dx^2/(4 alpha), the diffusion update writes each
masked cell a convex combination of that cell and its four neighbors, so
every value of the grid returned by the step lies between any lower bound m
and upper bound M of the pre-diffusion grid values together with wall_temp;
the step never overshoots the existing temperature range (over exact
arithmetic). -/
theorem claim10_max_principle (cfg : Config) (rows cols : ℕ)
    (mask : ℕ → ℕ → Bool) (u : ℕ → ℕ → ℚ) (m M : ℚ) (r c : ℕ)
    (hdx : 0 < cfg.grid_resolution) (halpha : 0 < cfg.thermal_diffusivity)
    (hdt : 0 ≤ cfg.time_step) (hstab : cfg.time_step ≤ stabilityLimit cfg)
    (hb : ∀ i j, i < rows → j < cols → m ≤ u i j ∧ u i j ≤ M)
    (hwm : m ≤ cfg.wall_temp) (hwM : cfg.wall_temp ≤ M)
    (hr : r < rows) (hc : c < cols) :
    m ≤ diffusionStep cfg rows cols mask u r c ∧
    diffusionStep cfg rows cols mask u r c ≤ M := by
  unfold diffusionStep
  cases hmask : mask r c with
  | false =>
    simp only [hmask, Bool.false_eq_true, if_false]
    exact ⟨hwm, hwM⟩
  | true =>
    simp only [hmask, if_true]
    have hrows : 0 < rows := lt_of_le_of_lt (Nat.zero_le r) hr
    have hcols : 0 < cols := lt_of_le_of_lt (Nat.zero_le c) hc
    have hdx2 : (0 : ℚ) < cfg.grid_resolution ^ 2 := by positivity
    have hlam0 : 0 ≤ cfg.thermal_diffusivity * cfg.time_step /
        cfg.grid_resolution ^ 2 := by positivity
    have hlam4 : 4 * (cfg.thermal_diffusivity * cfg.time_step /
        cfg.grid_resolution ^ 2) ≤ 1 := by
      have h2 : cfg.time_step * (4 * cfg.thermal_diffusivity) ≤
          cfg.grid_resolution ^ 2 := by
        have := (le_div_iff (by positivity :
          (0 : ℚ) < 4 * cfg.thermal_diffusivity)).mp hstab
        linarith
      have h3 : 4 * (cfg.thermal_diffusivity * cfg.time_step /
          cfg.grid_resolution ^ 2) =
          cfg.time_step * (4 * cfg.thermal_diffusivity) /
            cfg.grid_resolution ^ 2 := by ring
      rw [h3, div_le_one hdx2]
      exact h2
    have hb1 := hb ((r + 1) % rows) c (Nat.mod_lt _ hrows) hc
    have hb2 := hb ((r + rows - 1) % rows) c (Nat.mod_lt _ hrows) hc
    have hb3 := hb r ((c + 1) % cols) hr (Nat.mod_lt _ hcols)
    have hb4 := hb r ((c + cols - 1) % cols) hr (Nat.mod_lt _ hcols)
    have hbc := hb r c hr hc
    have key : stencilCell cfg rows cols u r c =
        (1 - 4 * (cfg.thermal_diffusivity * cfg.time_step /
            cfg.grid_resolution ^ 2)) * u r c +
          (cfg.thermal_diffusivity * cfg.time_step /
            cfg.grid_resolution ^ 2) *
            (u ((r + 1) % rows) c + u ((r + rows - 1) % rows) c +
              u r ((c + 1) % cols) + u r ((c + cols - 1) % cols)) := by
      unfold stencilCell
      field_simp
      ring
    rw [key]
    constructor
    · nlinarith [mul_nonneg hlam0 (sub_nonneg.mpr hb1.1),
        mul_nonneg hlam0 (sub_nonneg.mpr hb2.1),
        mul_nonneg hlam0 (sub_nonneg.mpr hb3.1),
        mul_nonneg hlam0 (sub_nonneg.mpr hb4.1),
        mul_nonneg (by linarith : (0 : ℚ) ≤ 1 - 4 *
          (cfg.thermal_diffusivity * cfg.time_step / cfg.grid_resolution ^ 2))
          (sub_nonneg.mpr hbc.1)]
    · nlinarith [mul_nonneg hlam0 (sub_nonneg.mpr hb1.2),
        mul_nonneg hlam0 (sub_nonneg.mpr hb2.2),
        mul_nonneg hlam0 (sub_nonneg.mpr hb3.2),
        mul_nonneg hlam0 (sub_nonneg.mpr hb4.2),
        mul_nonneg (by linarith : (0 : ℚ) ≤ 1 - 4 *
          (cfg.thermal_diffusivity * cfg.time_step / cfg.grid_resolution ^ 2))
          (sub_nonneg.mpr hbc.2)]

/-- Witness for C10: with the stable configuration cfgW, a constant grid of
value 10 on a 2 x 2 shape stays between the bounds 0 (= wall_temp) and
20. -/
theorem claim10_witness :
    (0 : ℚ) < cfgW.grid_resolution ∧ (0 : ℚ) < cfgW.thermal_diffusivity ∧
    (0 : ℚ) ≤ cfgW.time_step ∧ cfgW.time_step ≤ stabilityLimit cfgW ∧
    (0 : ℚ) ≤ cfgW.wall_temp ∧ cfgW.wall_temp ≤ 20 ∧
    ((0 : ℚ) ≤ diffusionStep cfgW 2 2 (fun _ _ => true) (fun _ _ => 10) 1 1 ∧
      diffusionStep cfgW 2 2 (fun _ _ => true) (fun _ _ => 10) 1 1 ≤ 20) := by
  have hdx : (0 : ℚ) < cfgW.grid_resolution := by norm_num [cfgW]
  have halpha : (0 : ℚ) < cfgW.thermal_diffusivity := by norm_num [cfgW]
  have hdt : (0 : ℚ) ≤ cfgW.time_step := by norm_num [cfgW]
  have hstab : cfgW.time_step ≤ stabilityLimit cfgW := by
    norm_num [cfgW, stabilityLimit]
  have hwm : (0 : ℚ) ≤ cfgW.wall_temp := by norm_num [cfgW]
  have hwM : cfgW.wall_temp ≤ 20 := by norm_num [cfgW]
  refine ⟨hdx, halpha, hdt, hstab, hwm, hwM, ?_⟩
  exact claim10_max_principle cfgW 2 2 (fun _ _ => true) (fun _ _ => 10) 0 20
    1 1 hdx halpha hdt hstab
    (fun i j _ _ => by norm_num) hwm hwM (by decide) (by decide)

/-- Lower bounding-box bound: when the quantity v is at most r + 1/2, the
Python index int(max(0, v)) is at most r. -/
lemma pyInt_max_le (v : ℚ) (r : ℕ) (h : v ≤ (r : ℚ) + 1 / 2) :
    pyInt (max 0 v) ≤ (r : ℤ) := by
  unfold pyInt
  rw [if_pos (le_max_left 0 v)]
  have h2 : max 0 v ≤ (r : ℚ) + 1 / 2 := by
    apply max_le _ h
    positivity
  have h4 : ⌊(r : ℚ) + 1 / 2⌋ = (r : ℤ) := by
    rw [Int.floor_eq_iff]
    constructor
    · push_cast
      linarith
    · push_cast
      linarith
  calc ⌊max 0 v⌋ ≤ ⌊(r : ℚ) + 1 / 2⌋ := Int.floor_le_floor h2
    _ = (r : ℤ) := h4

/-- Upper bounding-box bound: when r < bound and r + 1/2 is at most w, the
Python index int(min(bound, w + 1)) is strictly greater than r. -/
lemma pyInt_min_lt (w : ℚ) (r bound : ℕ) (hrb : r < bound)
    (h : (r : ℚ) + 1 / 2 ≤ w) :
    (r : ℤ) < pyInt (min (bound : ℚ) (w + 1)) := by
  have hr0 : (0 : ℚ) ≤ (r : ℚ) := Nat.cast_nonneg r
  have h0 : (0 : ℚ) ≤ min (bound : ℚ) (w + 1) := by
    apply le_min (by positivity)
    linarith
  unfold pyInt
  rw [if_pos h0]
  have hle : (((r : ℤ) + 1 : ℤ) : ℚ) ≤ min (bound : ℚ) (w + 1) := by
    apply le_min
    · push_cast
      exact_mod_cast Nat.succ_le_of_lt hrb
    · push_cast
      linarith
  have h5 : (r : ℤ) + 1 ≤ ⌊min (bound : ℚ) (w + 1)⌋ := Int.le_floor.mpr hle
  omega

/-- The bounding box of a heat source is conservative: inside the grid, a
cell whose center passes the distance test always lies inside the clipped
box, so applying one source is the same as the unconditional distance
test. -/
lemma applySource_eq (cfg : Config) (rows cols : ℕ) (g : ℕ → ℕ → ℚ)
    (s : HeatSource) (r c : ℕ) (hdx : 0 < cfg.grid_resolution)
    (hrad : 0 ≤ s.radius) (hr : r < rows) (hc : c < cols) :
    applySource cfg rows cols g s r c =
      if distSq cfg s r c ≤ s.radius ^ 2 then s.temperature else g r c := by
  unfold applySource
  by_cases hcov : distSq cfg s r c ≤ s.radius ^ 2
  · have hy2 : (cellCenter cfg r - s.y) ^ 2 ≤ s.radius ^ 2 := by
      have hx0 : 0 ≤ (cellCenter cfg c - s.x) ^ 2 := sq_nonneg _
      unfold distSq at hcov
      linarith
    have hx2 : (cellCenter cfg c - s.x) ^ 2 ≤ s.radius ^ 2 := by
      have hy0 : 0 ≤ (cellCenter cfg r - s.y) ^ 2 := sq_nonneg _
      unfold distSq at hcov
      linarith
    have hylow : s.y - s.radius ≤ cellCenter cfg r := by
      nlinarith [sq_nonneg (cellCenter cfg r - s.y + s.radius)]
    have hyhigh : cellCenter cfg r ≤ s.y + s.radius := by
      nlinarith [sq_nonneg (cellCenter cfg r - s.y - s.radius)]
    have hxlow : s.x - s.radius ≤ cellCenter cfg c := by
      nlinarith [sq_nonneg (cellCenter cfg c - s.x + s.radius)]
    have hxhigh : cellCenter cfg c ≤ s.x + s.radius := by
      nlinarith [sq_nonneg (cellCenter cfg c - s.x - s.radius)]
    rw [if_pos hcov, if_pos]
    refine ⟨?_, ?_, ?_, ?_, hcov⟩
    · apply pyInt_max_le
      rw [div_le_iff hdx]
      unfold cellCenter at hylow
      linear_combination hylow
    · apply pyInt_min_lt _ _ _ hr
      rw [le_div_iff hdx]
      unfold cellCenter at hyhigh
      linear_combination hyhigh
    · apply pyInt_max_le
      rw [div_le_iff hdx]
      unfold cellCenter at hxlow
      linear_combination hxlow
    · apply pyInt_min_lt _ _ _ hc
      rw [le_div_iff hdx]
      unfold cellCenter at hxhigh
      linear_combination hxhigh
  · rw [if_neg hcov, if_neg]
    intro hand
    exact hcov hand.2.2.2.2

/-- Unrolling the heat-source loop cell by cell: inside the grid, the loop
computes exactly the in-order last-covering-source semantics. -/
lemma applySources_pointwise (cfg : Config) (rows cols r c : ℕ)
    (hdx : 0 < cfg.grid_resolution) (hr : r < rows) (hc : c < cols) :
    ∀ (L : List HeatSource) (g : ℕ → ℕ → ℚ), (∀ s ∈ L, 0 ≤ s.radius) →
      L.foldl (applySource cfg rows cols) g r c =
        L.foldl (fun acc s =>
          if distSq cfg s r c ≤ s.radius ^ 2 then s.temperature else acc)
          (g r c)
  | [], g, _ => rfl
  | s :: L, g, hs => by
    simp only [List.foldl_cons]
    rw [applySources_pointwise cfg rows cols r c hdx hr hc L
      (applySource cfg rows cols g s)
      (fun t ht => hs t (List.mem_cons_of_mem _ ht))]
    rw [applySource_eq cfg rows cols g s r c hdx
      (hs s (List.mem_cons_self _ _)) hr hc]

/-- Claim C5: applying the heat sources (before diffusion) sets every
in-grid cell whose center lies within Euclidean distance radius of a source
center (tested as squared distance at most squared radius) to that source
temperature, overwriting any prior value including wall temperature; cells
covered by no source keep their prior value; sources are applied in list
order, so the last covering source in the list wins.  The hypotheses record
the data-model invariants: positive resolution, nonnegative radii, and
sources located in the nonnegative quadrant covered by the grid (the regime
in which the Python bounding-box slice arithmetic is faithful). -/
theorem claim5_heat_sources (cfg : Config) (rows cols : ℕ)
    (g : ℕ → ℕ → ℚ) (r c : ℕ) (hdx : 0 < cfg.grid_resolution)
    (hsrc : ∀ s ∈ cfg.heat_sources, 0 ≤ s.radius ∧ 0 ≤ s.x ∧ 0 ≤ s.y)
    (hr : r < rows) (hc : c < cols) :
    applyHeatSources cfg rows cols g r c =
      lastCoveringTemp cfg cfg.heat_sources r c (g r c) :=
  applySources_pointwise cfg rows cols r c hdx hr hc cfg.heat_sources g
    (fun s hs => (hsrc s hs).1)

/-- Witness for C5: the source list of cfgW satisfies the data-model
invariants, and the loop on the 3 x 3 constant grid agrees with the
last-covering-source semantics at cell (0, 0). -/
theorem claim5_witness :
    (0 : ℚ) < cfgW.grid_resolution ∧
    (∀ s ∈ cfgW.heat_sources, 0 ≤ s.radius ∧ 0 ≤ s.x ∧ 0 ≤ s.y) ∧
    0 < 3 ∧
    applyHeatSources cfgW 3 3 gridW.data 0 0 =
      lastCoveringTemp cfgW cfgW.heat_sources 0 0 (gridW.data 0 0) := by
  have hdx : (0 : ℚ) < cfgW.grid_resolution := by norm_num [cfgW]
  have hsrc : ∀ s ∈ cfgW.heat_sources, 0 ≤ s.radius ∧ 0 ≤ s.x ∧ 0 ≤ s.y := by
    intro s hs
    simp only [cfgW, List.mem_singleton] at hs
    subst hs
    norm_num
  exact ⟨hdx, hsrc, by decide,
    claim5_heat_sources cfgW 3 3 gridW.data 0 0 hdx hsrc
      (by decide) (by decide)⟩

end HeatSim
